import Mathlib

/-!
Shallow embedding of `src/pong.py` (a two-paddle Pong game) and proofs about it.

Modelling conventions:
* `pygame.Rect` stores integer coordinates; assigning a Python float to a Rect
  attribute truncates it toward zero.  Positions are therefore `ℤ` and the
  coercion of a float expression into a coordinate is `trunc : ℝ → ℤ`
  (truncation toward zero).
* Python float arithmetic (velocities, `** 0.5`, divisions) is idealised as
  exact real arithmetic over `ℝ`.
* The two random draws of `Ball.reset` (`random.choice([-1, 1])` and
  `random.uniform(-0.8, 0.8)`) are passed in as explicit parameters
  (`dirx : ℤ`, `diry : ℝ`); theorems quantify over them, restricted to the
  ranges the library guarantees.
* The frame loop of `main` is embedded as a step function `stepFrame` over a
  `Game` record; per-frame pygame events and held keys are explicit inputs.
  Sound playback and drawing are omitted (they do not touch simulation state).
-/

namespace Pong

/-! ### Config constants (lines 9-16 of pong.py) -/

def WIDTH : ℤ := 900
def HEIGHT : ℤ := 600
def MARGIN : ℤ := 20
def PADDLE_W : ℤ := 14
def PADDLE_H : ℤ := 110
def BALL_SIZE : ℤ := 14
def PADDLE_SPEED : ℤ := 7
/-- Constant `BALL_SPEED = 6`; kept in `ℝ` because it only occurs in float formulas. -/
def BALL_SPEED : ℝ := 6
def WIN_SCORE : ℕ := 11

/-! ### pygame.Rect coordinate coercion -/

/-- Assigning a Python float to a `pygame.Rect` coordinate truncates it
toward zero (C integer conversion). -/
noncomputable def trunc (x : ℝ) : ℤ := if x < 0 then ⌈x⌉ else ⌊x⌋

theorem trunc_intCast (n : ℤ) : trunc (n : ℝ) = n := by
  unfold trunc
  split <;> simp

theorem trunc_eq_of_nonneg (z : ℤ) (x : ℝ) (h0 : 0 ≤ x) (h1 : (z : ℝ) ≤ x)
    (h2 : x < (z : ℝ) + 1) : trunc x = z := by
  unfold trunc
  rw [if_neg (by linarith)]
  exact Int.floor_eq_iff.mpr ⟨h1, by linarith⟩

/-! ### Play area (line 135) -/

structure RectA where
  x : ℤ
  y : ℤ
  w : ℤ
  h : ℤ

def RectA.left (r : RectA) : ℤ := r.x
def RectA.right (r : RectA) : ℤ := r.x + r.w
def RectA.top (r : RectA) : ℤ := r.y
def RectA.bottom (r : RectA) : ℤ := r.y + r.h

/-- The rect `pygame.Rect(MARGIN, MARGIN, WIDTH - 2*MARGIN, HEIGHT - 2*MARGIN)`. -/
def play_area : RectA := ⟨MARGIN, MARGIN, WIDTH - 2 * MARGIN, HEIGHT - 2 * MARGIN⟩

/-! ### Paddle (lines 26-36) -/

structure Paddle where
  x : ℤ
  y : ℤ
  vel : ℝ

def Paddle.top (p : Paddle) : ℤ := p.y
def Paddle.bottom (p : Paddle) : ℤ := p.y + PADDLE_H
/-- Accessor `pygame.Rect.centery = y + h // 2`. -/
def Paddle.centery (p : Paddle) : ℤ := p.y + PADDLE_H / 2

/-- Method `Paddle.update`: `self.y += self.vel`, then clamp the paddle into `bounds`
vertically (`self.top = bounds.top` sets `y`; `self.bottom = bounds.bottom`
sets `y = bounds.bottom - h`). -/
noncomputable def Paddle.update (p : Paddle) (bounds : RectA) : Paddle :=
  let y1 := trunc ((p.y : ℝ) + p.vel)
  let y2 := if y1 < bounds.top then bounds.top else y1
  let y3 := if y2 + PADDLE_H > bounds.bottom then bounds.bottom - PADDLE_H else y2
  { p with y := y3 }

/-! ### Ball (lines 38-55) -/

structure Ball where
  x : ℤ
  y : ℤ
  vx : ℝ
  vy : ℝ

def Ball.left (b : Ball) : ℤ := b.x
def Ball.right (b : Ball) : ℤ := b.x + BALL_SIZE
def Ball.top (b : Ball) : ℤ := b.y
def Ball.bottom (b : Ball) : ℤ := b.y + BALL_SIZE
def Ball.centery (b : Ball) : ℤ := b.y + BALL_SIZE / 2

/-- The magnitude `(dir_x**2 + dir_y**2) ** 0.5` computed by `Ball.reset`,
where `dir_x = random.choice([-1, 1])` and `dir_y = random.uniform(-0.8, 0.8)`. -/
noncomputable def resetMag (dirx : ℤ) (diry : ℝ) : ℝ :=
  Real.sqrt ((dirx : ℝ) ^ 2 + diry ^ 2)

/-- The velocity produced by `Ball.reset` from the two random draws:
`vx = speed * (dir_x / mag)`, `vy = speed * (dir_y / mag)`. -/
noncomputable def resetVel (dirx : ℤ) (diry : ℝ) : ℝ × ℝ :=
  (BALL_SPEED * ((dirx : ℝ) / resetMag dirx diry),
   BALL_SPEED * (diry / resetMag dirx diry))

/-- Method `Ball.reset(center)`: re-centers the rect (`x = cx - w // 2`,
`y = cy - h // 2`) and installs the randomized normalized velocity. -/
noncomputable def Ball.reset (c : ℤ × ℤ) (dirx : ℤ) (diry : ℝ) : Ball :=
  { x := c.1 - BALL_SIZE / 2
    y := c.2 - BALL_SIZE / 2
    vx := (resetVel dirx diry).1
    vy := (resetVel dirx diry).2 }

/-- Method `Ball.update`: `self.x += self.vx; self.y += self.vy` with the float sums
truncated back into the integer rect coordinates. -/
noncomputable def Ball.update (b : Ball) : Ball :=
  { b with x := trunc ((b.x : ℝ) + b.vx), y := trunc ((b.y : ℝ) + b.vy) }

/-! ### Collision and response (lines 74-112) -/

/-- The velocity update of `ball_paddle_collision` after the push-out:
reflect `vx`, set `vy = (BALL_SPEED + 0.5) * offset`, then renormalize the
pair to the `BALL_SPEED` budget. -/
noncomputable def bounceVel (v : ℝ × ℝ) (offset : ℝ) : ℝ × ℝ :=
  let vx := -v.1
  let vy := (BALL_SPEED + 0.5) * offset
  let speed := Real.sqrt (vx ^ 2 + vy ^ 2)
  let factor := BALL_SPEED / speed
  (vx * factor, vy * factor)

/-- Predicate `pygame.Rect.colliderect` for positive-size rects: strict overlap on both
axes (edge-touching does not collide). -/
def colliderect (b : Ball) (p : Paddle) : Prop :=
  b.x < p.x + PADDLE_W ∧ p.x < b.x + BALL_SIZE ∧
    b.y < p.y + PADDLE_H ∧ p.y < b.y + BALL_SIZE

instance (b : Ball) (p : Paddle) : Decidable (colliderect b p) := by
  unfold colliderect
  infer_instance

/-- Function `ball_paddle_collision`: on overlap, push the ball out horizontally to the
paddle's outer edge (by the sign of `vx`), compute
`offset = (ball.centery - paddle.centery) / (PADDLE_H / 2)` (float division),
and apply the reflect-spin-renormalize velocity update.  Sound playback is
omitted. -/
noncomputable def ball_paddle_collision (b : Ball) (p : Paddle) : Ball :=
  if colliderect b p then
    let b1 := if b.vx < 0 then { b with x := p.x + PADDLE_W }
              else { b with x := p.x - BALL_SIZE }
    let offset : ℝ := ((b1.centery - p.centery : ℤ) : ℝ) / ((PADDLE_H : ℝ) / 2)
    let v := bounceVel (b1.vx, b1.vy) offset
    { b1 with vx := v.1, vy := v.2 }
  else b

/-- Function `clamp_ball_vertical`: if the ball's top reaches the top of `bounds`, clamp
it to the top and negate `vy`; `elif` the bottom reaches the bottom, clamp to
the bottom and negate `vy`.  Sound playback is omitted. -/
def clamp_ball_vertical (b : Ball) (bounds : RectA) : Ball :=
  if b.top ≤ bounds.top then
    { b with y := bounds.top, vy := -b.vy }
  else if b.bottom ≥ bounds.bottom then
    { b with y := bounds.bottom - BALL_SIZE, vy := -b.vy }
  else b

/-! ### AI controller (lines 114-123) -/

/-- Function `ai_move`: track the ball's vertical center with a dead-band of 12 px at
90% of the paddle speed. -/
def ai_move (p : Paddle) (b : Ball) : Paddle :=
  if p.centery < b.centery - 12 then { p with vel := (PADDLE_SPEED : ℝ) * 0.9 }
  else if p.centery > b.centery + 12 then { p with vel := -(PADDLE_SPEED : ℝ) * 0.9 }
  else { p with vel := 0 }

/-! ### Game state and frame loop (lines 128-250)

There is no explicit state enum in the source: "Paused" is `paused = True`,
"Won" is `score >= WIN_SCORE` (the win-banner section re-asserts
`paused = True` every frame while that holds), and "Playing" is everything
else.  One iteration of the `while running` loop (with drawing and sound
stripped out, which touch no simulation state) is `stepFrame`. -/

/-- A pair of random draws for one `Ball.reset` call. -/
abbrev Draw : Type := ℤ × ℝ

/-- The pygame events consumed at the top of a frame.  A `KEYDOWN` of `R`
carries the two random draws its `ball.reset` call will make; keys the loop
ignores are `other`. -/
inductive Ev
  | quit
  | escape
  | space
  | rkey (dirx : ℤ) (diry : ℝ)
  | hkey
  | other

/-- The held-key snapshot `pygame.key.get_pressed()` (only W and S matter:
`human_right` is hard-coded to `False`, so the right paddle is always AI). -/
structure Keys where
  w : Bool
  s : Bool

structure Game where
  score_l : ℕ
  score_r : ℕ
  running : Bool
  paused : Bool
  show_help : Bool
  left : Paddle
  right : Paddle
  ball : Ball

/-- The event dispatch of lines 163-176. -/
noncomputable def doEvent (g : Game) : Ev → Game
  | .quit => { g with running := false }
  | .escape => { g with running := false }
  | .space => { g with paused := !g.paused }
  | .rkey dirx diry =>
      { g with score_l := 0, score_r := 0,
               ball := Ball.reset (WIDTH / 2, HEIGHT / 2) dirx diry }
  | .hkey => { g with show_help := !g.show_help }
  | .other => g

def boolInt (b : Bool) : ℤ := if b then 1 else 0

/-- Line 180: `left.vel = (keys[K_s] - keys[K_w]) * PADDLE_SPEED`. -/
def humanVel (keys : Keys) : ℤ := (boolInt keys.s - boolInt keys.w) * PADDLE_SPEED

/-- The scoring checks of lines 199-215: right scores when the ball's left
edge is at least 4 px past the play area's left edge, then (on the possibly
reset ball) left scores when the ball's right edge is at least 4 px past the
play area's right edge; each score resets the ball to the window center. -/
noncomputable def scoreStep (g : Game) (dA dB : Draw) : Game :=
  let g1 := if g.ball.left ≤ play_area.left - 4 then
              { g with score_r := g.score_r + 1,
                       ball := Ball.reset (WIDTH / 2, HEIGHT / 2) dA.1 dA.2 }
            else g
  if g1.ball.right ≥ play_area.right + 4 then
    { g1 with score_l := g1.score_l + 1,
              ball := Ball.reset (WIDTH / 2, HEIGHT / 2) dB.1 dB.2 }
  else g1

/-- The non-paused update block of lines 190-215: paddle updates, ball flight,
wall clamp, the two paddle collisions (left then right), then scoring. -/
noncomputable def playStep (g : Game) (dA dB : Draw) : Game :=
  let l := g.left.update play_area
  let r := g.right.update play_area
  let b1 := g.ball.update
  let b2 := clamp_ball_vertical b1 play_area
  let b3 := ball_paddle_collision b2 l
  let b4 := ball_paddle_collision b3 r
  scoreStep { g with left := l, right := r, ball := b4 } dA dB

/-- The win-banner section (lines 241-242): whenever either score has reached
`WIN_SCORE` the frame ends with `paused = True`. -/
def winCheck (g : Game) : Game :=
  if WIN_SCORE ≤ g.score_l ∨ WIN_SCORE ≤ g.score_r then { g with paused := true }
  else g

/-- One iteration of the `while running` loop: events, control mapping
(human left paddle, AI right paddle), the gameplay block guarded by
`if not paused`, then the win-banner pause.  `dA`/`dB` are the random draws
used if the left/right scoring checks fire this frame. -/
noncomputable def stepFrame (g : Game) (evs : List Ev) (keys : Keys)
    (dA dB : Draw) : Game :=
  let g1 := evs.foldl doEvent g
  let g2 := { g1 with left := { g1.left with vel := ((humanVel keys : ℤ) : ℝ) },
                      right := ai_move g1.right g1.ball }
  let g3 := if g2.paused then g2 else playStep g2 dA dB
  winCheck g3

/-! ### The speed-budget invariant of the ball's velocity

The three direction-changing operations of the source are `Ball.reset`
(velocity `resetVel`), the wall bounce of `clamp_ball_vertical`
(`vy *= -1`), and the paddle bounce of `ball_paddle_collision`
(velocity `bounceVel`).  `VelEvent` lists them abstractly so that the
invariant can be stated over arbitrary event sequences. -/

/-- A velocity is "good" when its horizontal component is non-zero and its
squared magnitude sits exactly on the `BALL_SPEED` budget. -/
def goodVel (v : ℝ × ℝ) : Prop := v.1 ≠ 0 ∧ v.1 ^ 2 + v.2 ^ 2 = BALL_SPEED ^ 2

theorem resetMag_pos (dirx : ℤ) (diry : ℝ) (h : dirx = 1 ∨ dirx = -1) :
    0 < resetMag dirx diry := by
  unfold resetMag
  apply Real.sqrt_pos.mpr
  have hdx : ((dirx : ℤ) : ℝ) ^ 2 = 1 := by rcases h with rfl | rfl <;> norm_num
  nlinarith [sq_nonneg diry]

theorem resetMag_sq (dirx : ℤ) (diry : ℝ) :
    resetMag dirx diry ^ 2 = ((dirx : ℤ) : ℝ) ^ 2 + diry ^ 2 := by
  unfold resetMag
  exact Real.sq_sqrt (by positivity)

theorem goodVel_resetVel (dirx : ℤ) (diry : ℝ) (h : dirx = 1 ∨ dirx = -1) :
    goodVel (resetVel dirx diry) := by
  have hm := resetMag_pos dirx diry h
  have hm2 := resetMag_sq dirx diry
  have hdx : ((dirx : ℤ) : ℝ) ^ 2 = 1 := by rcases h with rfl | rfl <;> norm_num
  have hB : BALL_SPEED ≠ 0 := by norm_num [BALL_SPEED]
  constructor
  · unfold resetVel
    dsimp only
    have hdx0 : ((dirx : ℤ) : ℝ) ≠ 0 := by rcases h with rfl | rfl <;> norm_num
    exact mul_ne_zero hB (div_ne_zero hdx0 hm.ne')
  · unfold resetVel
    dsimp only
    have key : (BALL_SPEED * ((dirx : ℝ) / resetMag dirx diry)) ^ 2 +
        (BALL_SPEED * (diry / resetMag dirx diry)) ^ 2 =
        BALL_SPEED ^ 2 * (((dirx : ℤ) : ℝ) ^ 2 + diry ^ 2) / resetMag dirx diry ^ 2 := by
      field_simp
      ring
    rw [key, hm2, hdx]
    have h1 : (1 : ℝ) + diry ^ 2 ≠ 0 := by positivity
    field_simp

theorem goodVel_bounceVel (v : ℝ × ℝ) (offset : ℝ) (hvx : v.1 ≠ 0) :
    goodVel (bounceVel v offset) := by
  unfold bounceVel
  dsimp only
  set vy : ℝ := (BALL_SPEED + 0.5) * offset with hvy
  have hs2 : 0 < (-v.1) ^ 2 + vy ^ 2 := by
    have h1 : v.1 ^ 2 ≠ 0 := pow_ne_zero 2 hvx
    have h2 : 0 < v.1 ^ 2 := (sq_nonneg v.1).lt_of_ne (Ne.symm h1)
    nlinarith [sq_nonneg vy]
  have hsp : 0 < Real.sqrt ((-v.1) ^ 2 + vy ^ 2) := Real.sqrt_pos.mpr hs2
  have hsp2 : Real.sqrt ((-v.1) ^ 2 + vy ^ 2) ^ 2 = (-v.1) ^ 2 + vy ^ 2 :=
    Real.sq_sqrt hs2.le
  have hB : (0 : ℝ) < BALL_SPEED := by norm_num [BALL_SPEED]
  constructor
  · exact mul_ne_zero (neg_ne_zero.mpr hvx) (div_ne_zero hB.ne' hsp.ne')
  · have key : (-v.1 * (BALL_SPEED / Real.sqrt ((-v.1) ^ 2 + vy ^ 2))) ^ 2 +
        (vy * (BALL_SPEED / Real.sqrt ((-v.1) ^ 2 + vy ^ 2))) ^ 2 =
        BALL_SPEED ^ 2 * ((-v.1) ^ 2 + vy ^ 2) /
          Real.sqrt ((-v.1) ^ 2 + vy ^ 2) ^ 2 := by
      field_simp
      ring
    rw [key, hsp2]
    field_simp

/-- A good velocity has magnitude exactly `BALL_SPEED`. -/
theorem goodVel_sqrt (v : ℝ × ℝ) (h : goodVel v) :
    Real.sqrt (v.1 ^ 2 + v.2 ^ 2) = BALL_SPEED := by
  rw [h.2]
  exact Real.sqrt_sq (by norm_num [BALL_SPEED])

/-- The direction-changing events of the source: a `reset` draw, a wall
bounce (`vy *= -1`), a paddle bounce with a given hit offset. -/
inductive VelEvent
  | reset (dirx : ℤ) (diry : ℝ)
  | wall
  | paddle (offset : ℝ)

/-- The effect of each event on the velocity, exactly as the corresponding
source operation computes it. -/
noncomputable def VelEvent.apply (v : ℝ × ℝ) : VelEvent → ℝ × ℝ
  | .reset dirx diry => resetVel dirx diry
  | .wall => (v.1, -v.2)
  | .paddle offset => bounceVel v offset

noncomputable def applyEvents (v : ℝ × ℝ) (l : List VelEvent) : ℝ × ℝ :=
  l.foldl VelEvent.apply v

/-- Event well-formedness: `random.choice([-1, 1])` only draws 1 or -1. -/
def okEvent : VelEvent → Prop
  | .reset dirx _ => dirx = 1 ∨ dirx = -1
  | .wall => True
  | .paddle _ => True

theorem goodVel_apply (v : ℝ × ℝ) (e : VelEvent) (hv : goodVel v)
    (he : okEvent e) : goodVel (VelEvent.apply v e) := by
  cases e with
  | reset dirx diry => exact goodVel_resetVel dirx diry he
  | wall =>
      refine ⟨hv.1, ?_⟩
      have := hv.2
      unfold VelEvent.apply
      dsimp only
      nlinarith [this]
  | paddle offset => exact goodVel_bounceVel v offset hv.1

theorem goodVel_applyEvents (v : ℝ × ℝ) (l : List VelEvent) (hv : goodVel v)
    (hl : ∀ e ∈ l, okEvent e) : goodVel (applyEvents v l) := by
  induction l generalizing v with
  | nil => exact hv
  | cons e t ih =>
      have he : okEvent e := hl e (List.mem_cons_self e t)
      have ht : ∀ x ∈ t, okEvent x := fun x hx => hl x (List.mem_cons_of_mem e hx)
      exact ih (VelEvent.apply v e) (goodVel_apply v e hv he) ht

/-- The velocity produced by `ball_paddle_collision` on a hit is exactly
`bounceVel` of the incoming velocity at the geometric offset (the horizontal
push-out does not change `centery`, `vx` or `vy`). -/
theorem ball_paddle_collision_vel (b : Ball) (p : Paddle) (hc : colliderect b p) :
    (ball_paddle_collision b p).vx =
      (bounceVel (b.vx, b.vy) (((b.centery - p.centery : ℤ) : ℝ) / ((PADDLE_H : ℝ) / 2))).1 ∧
    (ball_paddle_collision b p).vy =
      (bounceVel (b.vx, b.vy) (((b.centery - p.centery : ℤ) : ℝ) / ((PADDLE_H : ℝ) / 2))).2 := by
  unfold ball_paddle_collision
  rw [if_pos hc]
  dsimp only
  split_ifs with h <;> exact ⟨rfl, rfl⟩

/-- The renormalization factor of `bounceVel` is positive when `vx ≠ 0`, so
the reflected horizontal component keeps the flipped sign. -/
theorem bounceVel_sign (v : ℝ × ℝ) (offset : ℝ) (hvx : v.1 ≠ 0) :
    (0 < v.1 → (bounceVel v offset).1 < 0) ∧ (v.1 < 0 → 0 < (bounceVel v offset).1) := by
  unfold bounceVel
  dsimp only
  have h1 : v.1 ^ 2 ≠ 0 := pow_ne_zero 2 hvx
  have h2 : 0 < v.1 ^ 2 := (sq_nonneg v.1).lt_of_ne (Ne.symm h1)
  have hs2 : 0 < (-v.1) ^ 2 + ((BALL_SPEED + 0.5) * offset) ^ 2 := by
    nlinarith [sq_nonneg ((BALL_SPEED + 0.5) * offset)]
  have hsp : 0 < Real.sqrt ((-v.1) ^ 2 + ((BALL_SPEED + 0.5) * offset) ^ 2) :=
    Real.sqrt_pos.mpr hs2
  have hf : 0 < BALL_SPEED / Real.sqrt ((-v.1) ^ 2 + ((BALL_SPEED + 0.5) * offset) ^ 2) :=
    div_pos (by norm_num [BALL_SPEED]) hsp
  constructor
  · intro hpos
    exact mul_neg_of_neg_of_pos (neg_neg_of_pos hpos) hf
  · intro hneg
    exact mul_pos (neg_pos.mpr hneg) hf

/-- A zero offset (a dead-center hit) yields a zero vertical component. -/
theorem bounceVel_center (v : ℝ × ℝ) : (bounceVel v 0).2 = 0 := by
  unfold bounceVel
  simp

/-- C4: the claim that `Ball.reset` always yields `vy ≠ 0` fails on the code:
`random.uniform(-0.8, 0.8)` can draw exactly `0` (the draw `0` lies in the
closed range), and then `vy = BALL_SPEED * (0 / 1) = 0`, even though the
speed is still exactly `BALL_SPEED` and `vx ≠ 0`.  This contradicts the
source's own comment "ensure non-zero vertical component". -/
theorem c4_reset_zero_vertical_draw :
    (-0.8 : ℝ) ≤ 0 ∧ (0 : ℝ) ≤ 0.8 ∧ (resetVel 1 0).2 = 0 ∧
      Real.sqrt ((resetVel 1 0).1 ^ 2 + (resetVel 1 0).2 ^ 2) = BALL_SPEED ∧
      (resetVel 1 0).1 ≠ 0 := by
  have hm : resetMag 1 0 = 1 := by
    unfold resetMag
    norm_num
  have hv : resetVel 1 0 = (BALL_SPEED, 0) := by
    unfold resetVel
    rw [hm]
    norm_num
  refine ⟨by norm_num, by norm_num, ?_, ?_, ?_⟩
  · rw [hv]
  · rw [hv]
    dsimp only
    rw [show BALL_SPEED ^ 2 + (0 : ℝ) ^ 2 = BALL_SPEED ^ 2 by ring]
    exact Real.sqrt_sq (by norm_num [BALL_SPEED])
  · rw [hv]
    norm_num [BALL_SPEED]

/-- C5: on every paddle-bounce event of a reachable ball (incoming speed on
the `BALL_SPEED` budget and `vx ≠ 0`, which every reset and bounce
establishes), the post-bounce speed equals the pre-bounce speed, the sign of
`vx` flips, and a hit exactly at the paddle's vertical center gives `vy = 0`. -/
theorem c5_paddle_bounce_conserves_speed (b : Ball) (p : Paddle)
    (hc : colliderect b p)
    (hs : Real.sqrt (b.vx ^ 2 + b.vy ^ 2) = BALL_SPEED)
    (hvx : b.vx ≠ 0) :
    Real.sqrt ((ball_paddle_collision b p).vx ^ 2 + (ball_paddle_collision b p).vy ^ 2) =
      Real.sqrt (b.vx ^ 2 + b.vy ^ 2) ∧
    (0 < b.vx → (ball_paddle_collision b p).vx < 0) ∧
    (b.vx < 0 → 0 < (ball_paddle_collision b p).vx) ∧
    (b.centery = p.centery → (ball_paddle_collision b p).vy = 0) := by
  obtain ⟨hvx', hvy'⟩ := ball_paddle_collision_vel b p hc
  set offset : ℝ := ((b.centery - p.centery : ℤ) : ℝ) / ((PADDLE_H : ℝ) / 2) with hoff
  have hgood : goodVel (bounceVel (b.vx, b.vy) offset) :=
    goodVel_bounceVel (b.vx, b.vy) offset hvx
  refine ⟨?_, ?_, ?_, ?_⟩
  · rw [hvx', hvy', hs]
    exact goodVel_sqrt _ hgood
  · intro hpos
    rw [hvx']
    exact (bounceVel_sign (b.vx, b.vy) offset hvx).1 hpos
  · intro hneg
    rw [hvx']
    exact (bounceVel_sign (b.vx, b.vy) offset hvx).2 hneg
  · intro hcen
    rw [hvy', hoff, hcen]
    rw [show ((p.centery - p.centery : ℤ) : ℝ) / ((PADDLE_H : ℝ) / 2) = 0 by
      push_cast; ring]
    exact bounceVel_center (b.vx, b.vy)

/-- C6: starting from any `Ball.reset` draw and applying any sequence of
direction-changing events of the source (resets, wall bounces, paddle
bounces), the speed `sqrt(vx^2 + vy^2)` is exactly `BALL_SPEED`: the speed
magnitude never drifts. -/
theorem c6_speed_budget_invariant (dirx : ℤ) (diry : ℝ) (l : List VelEvent)
    (hdx : dirx = 1 ∨ dirx = -1) (hl : ∀ e ∈ l, okEvent e) :
    Real.sqrt ((applyEvents (resetVel dirx diry) l).1 ^ 2 +
      (applyEvents (resetVel dirx diry) l).2 ^ 2) = BALL_SPEED :=
  goodVel_sqrt _ (goodVel_applyEvents _ l (goodVel_resetVel dirx diry hdx) hl)

theorem c6_speed_budget_invariant_witness :
    ((1 : ℤ) = 1 ∨ (1 : ℤ) = -1) ∧
    (∀ e ∈ [VelEvent.wall, VelEvent.paddle 1], okEvent e) ∧
    Real.sqrt ((applyEvents (resetVel 1 0) [VelEvent.wall, VelEvent.paddle 1]).1 ^ 2 +
      (applyEvents (resetVel 1 0) [VelEvent.wall, VelEvent.paddle 1]).2 ^ 2) = BALL_SPEED := by
  refine ⟨Or.inl rfl, ?_, c6_speed_budget_invariant 1 0 _ (Or.inl rfl) ?_⟩ <;>
    · intro e he
      simp only [List.mem_cons, List.not_mem_nil, or_false] at he
      rcases he with rfl | rfl <;> trivial

/-- C9: every normalization division of the core is guarded: the `Ball.reset`
divisor `resetMag` is at least 1 for every draw, and the paddle-bounce
divisor (the pre-normalization speed computed inside `bounceVel`) is
non-zero at every velocity reachable from a reset through any sequence of
source events, because `vx ≠ 0` is invariant. -/
theorem c9_normalization_guarded :
    (∀ (dirx : ℤ) (diry : ℝ), (dirx = 1 ∨ dirx = -1) → 1 ≤ resetMag dirx diry) ∧
    (∀ (dirx : ℤ) (diry : ℝ) (l : List VelEvent) (offset : ℝ),
      (dirx = 1 ∨ dirx = -1) → (∀ e ∈ l, okEvent e) →
      Real.sqrt ((-(applyEvents (resetVel dirx diry) l).1) ^ 2 +
        ((BALL_SPEED + 0.5) * offset) ^ 2) ≠ 0) := by
  constructor
  · intro dirx diry h
    unfold resetMag
    have hdx : ((dirx : ℤ) : ℝ) ^ 2 = 1 := by rcases h with rfl | rfl <;> norm_num
    rw [show (1 : ℝ) = Real.sqrt 1 by rw [Real.sqrt_one]]
    apply Real.sqrt_le_sqrt
    nlinarith [sq_nonneg diry]
  · intro dirx diry l offset hdx hl
    have hgood := goodVel_applyEvents _ l (goodVel_resetVel dirx diry hdx) hl
    have h1 : (applyEvents (resetVel dirx diry) l).1 ≠ 0 := hgood.1
    have h2 : 0 < (-(applyEvents (resetVel dirx diry) l).1) ^ 2 := by
      have := pow_ne_zero 2 (neg_ne_zero.mpr h1)
      exact (sq_nonneg _).lt_of_ne (Ne.symm this)
    have : 0 < (-(applyEvents (resetVel dirx diry) l).1) ^ 2 +
        ((BALL_SPEED + 0.5) * offset) ^ 2 := by
      nlinarith [sq_nonneg ((BALL_SPEED + 0.5) * offset)]
    exact (Real.sqrt_pos.mpr this).ne'

theorem c9_normalization_guarded_witness :
    ((1 : ℤ) = 1 ∨ (1 : ℤ) = -1) ∧ 1 ≤ resetMag 1 0 ∧
    Real.sqrt ((-(applyEvents (resetVel 1 0) []).1) ^ 2 +
      ((BALL_SPEED + 0.5) * 0) ^ 2) ≠ 0 :=
  ⟨Or.inl rfl, c9_normalization_guarded.1 1 0 (Or.inl rfl),
   c9_normalization_guarded.2 1 0 [] 0 (Or.inl rfl)
     (fun e he => absurd he (List.not_mem_nil e))⟩

/-- A ball overlapping the right paddle, aimed left, striking dead center. -/
def c5ball : Ball := ⟨840, 293, -6, 0⟩
def c5paddle : Paddle := ⟨848, 245, 0⟩

theorem c5_paddle_bounce_conserves_speed_witness :
    colliderect c5ball c5paddle ∧
    Real.sqrt (c5ball.vx ^ 2 + c5ball.vy ^ 2) = BALL_SPEED ∧ c5ball.vx ≠ 0 ∧
    (Real.sqrt ((ball_paddle_collision c5ball c5paddle).vx ^ 2 +
        (ball_paddle_collision c5ball c5paddle).vy ^ 2) =
      Real.sqrt (c5ball.vx ^ 2 + c5ball.vy ^ 2) ∧
     (0 < c5ball.vx → (ball_paddle_collision c5ball c5paddle).vx < 0) ∧
     (c5ball.vx < 0 → 0 < (ball_paddle_collision c5ball c5paddle).vx) ∧
     (c5ball.centery = c5paddle.centery →
        (ball_paddle_collision c5ball c5paddle).vy = 0)) := by
  have hc : colliderect c5ball c5paddle := by
    unfold colliderect c5ball c5paddle PADDLE_W PADDLE_H BALL_SIZE
    norm_num
  have hs : Real.sqrt (c5ball.vx ^ 2 + c5ball.vy ^ 2) = BALL_SPEED := by
    show Real.sqrt ((-6 : ℝ) ^ 2 + (0 : ℝ) ^ 2) = BALL_SPEED
    rw [show ((-6 : ℝ)) ^ 2 + (0 : ℝ) ^ 2 = 6 ^ 2 by norm_num]
    rw [Real.sqrt_sq (by norm_num : (0 : ℝ) ≤ 6)]
    norm_num [BALL_SPEED]
  have hvx : c5ball.vx ≠ 0 := by
    show (-6 : ℝ) ≠ 0
    norm_num
  exact ⟨hc, hs, hvx, c5_paddle_bounce_conserves_speed c5ball c5paddle hc hs hvx⟩

/-- C7: for every paddle position and velocity, `Paddle.update` against the
play-area bounds leaves the paddle's rectangle fully inside the play area's
vertical span (`top >= area.top` and `bottom <= area.bottom`), because the
move is followed by the two clamping assignments. -/
theorem c7_paddle_stays_in_bounds (p : Paddle) :
    play_area.top ≤ (p.update play_area).top ∧
      (p.update play_area).bottom ≤ play_area.bottom := by
  unfold Paddle.update Paddle.top Paddle.bottom RectA.top RectA.bottom play_area
  unfold MARGIN WIDTH HEIGHT PADDLE_H
  dsimp only
  split_ifs <;> omega

/-- C8: on every wall-bounce trigger of `clamp_ball_vertical` (the ball's top
at or above the play area's top, or — otherwise — its bottom at or below the
play area's bottom), the resulting `vy` is the negation of the incoming one
(so a non-zero `vy` flips sign) and the resulting ball lies fully within the
play area's vertical span. -/
theorem c8_wall_bounce_clamps_and_flips (b : Ball)
    (ht : b.top ≤ play_area.top ∨
      (play_area.top < b.top ∧ play_area.bottom ≤ b.bottom)) :
    (clamp_ball_vertical b play_area).vy = -b.vy ∧
    (0 < b.vy → (clamp_ball_vertical b play_area).vy < 0) ∧
    (b.vy < 0 → 0 < (clamp_ball_vertical b play_area).vy) ∧
    play_area.top ≤ (clamp_ball_vertical b play_area).top ∧
    (clamp_ball_vertical b play_area).bottom ≤ play_area.bottom := by
  unfold clamp_ball_vertical
  rcases ht with h1 | ⟨h1, h2⟩
  · rw [if_pos h1]
    refine ⟨rfl, fun h => by dsimp only; linarith, fun h => by dsimp only; linarith, ?_, ?_⟩
    · exact le_refl _
    · show play_area.top + BALL_SIZE ≤ play_area.bottom
      unfold play_area RectA.top RectA.bottom MARGIN WIDTH HEIGHT BALL_SIZE
      norm_num
  · rw [if_neg (not_le.mpr h1), if_pos h2]
    refine ⟨rfl, fun h => by dsimp only; linarith, fun h => by dsimp only; linarith, ?_, ?_⟩
    · show play_area.top ≤ play_area.bottom - BALL_SIZE
      unfold play_area RectA.top RectA.bottom MARGIN WIDTH HEIGHT BALL_SIZE
      norm_num
    · show play_area.bottom - BALL_SIZE + BALL_SIZE ≤ play_area.bottom
      omega

/-- A ball touching the top wall while moving up. -/
def c8ball : Ball := ⟨100, 15, 3, -2⟩

theorem c8_wall_bounce_clamps_and_flips_witness :
    (c8ball.top ≤ play_area.top ∨
      (play_area.top < c8ball.top ∧ play_area.bottom ≤ c8ball.bottom)) ∧
    ((clamp_ball_vertical c8ball play_area).vy = -c8ball.vy ∧
     (0 < c8ball.vy → (clamp_ball_vertical c8ball play_area).vy < 0) ∧
     (c8ball.vy < 0 → 0 < (clamp_ball_vertical c8ball play_area).vy) ∧
     play_area.top ≤ (clamp_ball_vertical c8ball play_area).top ∧
     (clamp_ball_vertical c8ball play_area).bottom ≤ play_area.bottom) := by
  have ht : c8ball.top ≤ play_area.top := by
    unfold c8ball Ball.top play_area RectA.top MARGIN
    norm_num
  exact ⟨Or.inl ht, c8_wall_bounce_clamps_and_flips c8ball (Or.inl ht)⟩

/-! ### C10: integer positions and truncation -/

/-- A ball at the window center moving up-left-ish: `vy = -1/2`. -/
noncomputable def c10ball : Ball := ⟨443, 300, 6, -(1 / 2 : ℝ)⟩

/-- C10 counterexample: for the ball state `y = 300`, `vy = -1/2` we have
`|vy| < 1` and `trunc vy = 0`, yet one `Ball.update` moves the vertical
position to 299: the position changes although `|vy| < 1`, and the
displacement (-1) is not the truncation of the velocity (0). -/
theorem c10_counterexample :
    |c10ball.vy| < 1 ∧ trunc c10ball.vy = 0 ∧
      (Ball.update c10ball).y = c10ball.y - 1 ∧ (Ball.update c10ball).y ≠ c10ball.y := by
  have h1 : |c10ball.vy| < 1 := by
    show |(-(1 / 2 : ℝ))| < 1
    rw [abs_neg, abs_of_nonneg (by norm_num : (0:ℝ) ≤ 1 / 2)]
    norm_num
  have h2 : trunc c10ball.vy = 0 := by
    show trunc (-(1 / 2 : ℝ)) = 0
    unfold trunc
    rw [if_pos (by norm_num : -(1 / 2 : ℝ) < 0)]
    exact Int.ceil_eq_iff.mpr ⟨by norm_num, by norm_num⟩
  have h3 : (Ball.update c10ball).y = 299 := by
    show trunc (((300 : ℤ) : ℝ) + -(1 / 2 : ℝ)) = 299
    apply trunc_eq_of_nonneg <;> push_cast <;> norm_num
  exact ⟨h1, h2, by rw [h3]; rfl, by rw [h3]; decide⟩

/-- C10 amended: positions are integers (the model stores them in `ℤ`,
mirroring `pygame.Rect`), and for every ball state with `0 ≤ vy < 1` and a
non-negative vertical position, arbitrarily many consecutive `Ball.update`
calls never change the vertical position. -/
theorem c10_nonneg_fractional_vy_freezes (b : Ball) (n : ℕ)
    (h0 : 0 ≤ b.vy) (h1 : b.vy < 1) (hy : 0 ≤ b.y) :
    (Ball.update^[n] b).y = b.y := by
  induction n generalizing b with
  | zero => rfl
  | succ n ih =>
      have hyv : (Ball.update b).y = b.y := by
        show trunc ((b.y : ℝ) + b.vy) = b.y
        have hyr : (0 : ℝ) ≤ (b.y : ℝ) := by exact_mod_cast hy
        apply trunc_eq_of_nonneg <;> linarith
      have hvy' : (Ball.update b).vy = b.vy := rfl
      rw [Function.iterate_succ_apply]
      rw [ih (Ball.update b) (by rw [hvy']; exact h0) (by rw [hvy']; exact h1)
        (by rw [hyv]; exact hy), hyv]

/-- A ball state with `vy = 1/2`, used to instantiate the C10 theorem. -/
noncomputable def c10wball : Ball := ⟨443, 300, 6, (1 / 2 : ℝ)⟩

theorem c10_nonneg_fractional_vy_freezes_witness :
    0 ≤ c10wball.vy ∧ c10wball.vy < 1 ∧ 0 ≤ c10wball.y ∧
      (Ball.update^[3] c10wball).y = c10wball.y := by
  have h0 : 0 ≤ c10wball.vy := by show (0:ℝ) ≤ 1 / 2; norm_num
  have h1 : c10wball.vy < 1 := by show (1 / 2 : ℝ) < 1; norm_num
  have hy : 0 ≤ c10wball.y := by decide
  exact ⟨h0, h1, hy, c10_nonneg_fractional_vy_freezes c10wball 3 h0 h1 hy⟩

/-! ### Frame-loop scenarios (C1, C2, C3) -/

/-- No held movement keys. -/
def k0 : Keys := ⟨false, false⟩

/-- A typical "Won(right)" state: the right score has reached `WIN_SCORE`,
the win banner has set `paused`, the ball sits re-centered from its last
reset, both paddles at their initial positions. -/
def wonGame : Game :=
  { score_l := 0, score_r := 11, running := true, paused := true,
    show_help := true, left := ⟨38, 245, 0⟩, right := ⟨848, 245, 0⟩,
    ball := ⟨443, 293, 6, 0⟩ }

/-- C1 (failing input): an `R` keydown in the `Won(right)` state
(`score_r = 11`, `paused` set by the win banner) zeroes both scores and
re-centers the ball with a fresh `resetVel` velocity — but the frame ends
with `paused` still `true` (the R handler never clears `paused`), so the
next frame runs no gameplay update at all: the game is not back in the
Playing state, contradicting the claim and the banner text
"Press R to restart". -/
theorem c1_reset_in_won_leaves_frozen :
    wonGame.score_r = 11 ∧ wonGame.paused = true ∧
    (stepFrame wonGame [Ev.rkey 1 0] k0 (1, 0) (1, 0)).score_l = 0 ∧
    (stepFrame wonGame [Ev.rkey 1 0] k0 (1, 0) (1, 0)).score_r = 0 ∧
    (stepFrame wonGame [Ev.rkey 1 0] k0 (1, 0) (1, 0)).ball.x = 443 ∧
    (stepFrame wonGame [Ev.rkey 1 0] k0 (1, 0) (1, 0)).ball.y = 293 ∧
    (stepFrame wonGame [Ev.rkey 1 0] k0 (1, 0) (1, 0)).ball.vx = (resetVel 1 0).1 ∧
    (stepFrame wonGame [Ev.rkey 1 0] k0 (1, 0) (1, 0)).ball.vy = (resetVel 1 0).2 ∧
    (stepFrame wonGame [Ev.rkey 1 0] k0 (1, 0) (1, 0)).paused = true ∧
    (stepFrame (stepFrame wonGame [Ev.rkey 1 0] k0 (1, 0) (1, 0)) [] k0 (1, 0)
        (1, 0)).ball.x =
      (stepFrame wonGame [Ev.rkey 1 0] k0 (1, 0) (1, 0)).ball.x ∧
    (stepFrame (stepFrame wonGame [Ev.rkey 1 0] k0 (1, 0) (1, 0)) [] k0 (1, 0)
        (1, 0)).ball.y =
      (stepFrame wonGame [Ev.rkey 1 0] k0 (1, 0) (1, 0)).ball.y ∧
    (stepFrame (stepFrame wonGame [Ev.rkey 1 0] k0 (1, 0) (1, 0)) [] k0 (1, 0)
        (1, 0)).left.y =
      (stepFrame wonGame [Ev.rkey 1 0] k0 (1, 0) (1, 0)).left.y ∧
    (stepFrame (stepFrame wonGame [Ev.rkey 1 0] k0 (1, 0) (1, 0)) [] k0 (1, 0)
        (1, 0)).right.y =
      (stepFrame wonGame [Ev.rkey 1 0] k0 (1, 0) (1, 0)).right.y ∧
    (stepFrame (stepFrame wonGame [Ev.rkey 1 0] k0 (1, 0) (1, 0)) [] k0 (1, 0)
        (1, 0)).paused = true :=
  ⟨rfl, rfl, rfl, rfl, rfl, rfl, rfl, rfl, rfl, rfl, rfl, rfl, rfl, rfl⟩

/-! Evaluation lemmas for single frames of the loop. -/

theorem trunc_intCast_add_intCast (a b : ℤ) :
    trunc ((a : ℝ) + (b : ℝ)) = a + b := by
  rw [← Int.cast_add, trunc_intCast]

theorem paddleUpdate_eval (x y y1 : ℤ) (v : ℝ)
    (hy : trunc ((y : ℝ) + v) = y1) (h2 : ¬ y1 < play_area.top)
    (h3 : ¬ y1 + PADDLE_H > play_area.bottom) :
    Paddle.update ⟨x, y, v⟩ play_area = ⟨x, y1, v⟩ := by
  unfold Paddle.update
  dsimp only
  rw [hy, if_neg h2, if_neg h3]

theorem ballUpdate_eval (x y x1 y1 : ℤ) (vx vy : ℝ)
    (hx : trunc ((x : ℝ) + vx) = x1) (hy : trunc ((y : ℝ) + vy) = y1) :
    Ball.update ⟨x, y, vx, vy⟩ = ⟨x1, y1, vx, vy⟩ := by
  unfold Ball.update
  dsimp only
  rw [hx, hy]

theorem clamp_noop (b : Ball) (h1 : ¬ b.top ≤ play_area.top)
    (h2 : ¬ b.bottom ≥ play_area.bottom) :
    clamp_ball_vertical b play_area = b := by
  unfold clamp_ball_vertical
  rw [if_neg h1, if_neg h2]

theorem collision_noop (b : Ball) (p : Paddle) (h : ¬ colliderect b p) :
    ball_paddle_collision b p = b := by
  unfold ball_paddle_collision
  rw [if_neg h]

theorem scoreStep_noop (g : Game) (dA dB : Draw)
    (h1 : ¬ g.ball.left ≤ play_area.left - 4)
    (h2 : ¬ g.ball.right ≥ play_area.right + 4) :
    scoreStep g dA dB = g := by
  unfold scoreStep
  rw [if_neg h1, if_neg h2]

/-- C2 (counterexample): in the same `Won(right)` state, a `Space` keydown —
neither a reset nor a quit — is accepted and clears `paused`, so the whole
gameplay block runs this frame: the ball moves from `x = 443` to `x = 449`.
Only at the end of the frame does the win banner re-assert `paused`.  So
gameplay updates do occur in the Won state before any reset fires. -/
theorem c2_space_in_won_runs_updates :
    wonGame.score_r = 11 ∧ wonGame.paused = true ∧
    (stepFrame wonGame [Ev.space] k0 (1, 0) (1, 0)).ball.x = 449 ∧
    wonGame.ball.x = 443 ∧
    (stepFrame wonGame [Ev.space] k0 (1, 0) (1, 0)).paused = true := by
  have hL : trunc (((245 : ℤ) : ℝ) + ((humanVel k0 : ℤ) : ℝ)) = 245 :=
    (trunc_intCast_add_intCast 245 (humanVel k0)).trans (by decide)
  have hR : trunc (((245 : ℤ) : ℝ) + (0 : ℝ)) = 245 := by
    rw [add_zero, trunc_intCast]
  have hBx : trunc (((443 : ℤ) : ℝ) + (6 : ℝ)) = 449 := by
    rw [show ((443 : ℤ) : ℝ) + (6 : ℝ) = ((449 : ℤ) : ℝ) by push_cast; norm_num,
      trunc_intCast]
  have hBy : trunc (((293 : ℤ) : ℝ) + (0 : ℝ)) = 293 := by
    rw [add_zero, trunc_intCast]
  have e2 : stepFrame wonGame [Ev.space] k0 (1, 0) (1, 0) =
      winCheck (playStep (Game.mk 0 11 true false true
        (Paddle.mk 38 245 ((humanVel k0 : ℤ) : ℝ)) (Paddle.mk 848 245 0)
        (Ball.mk 443 293 6 0)) (1, 0) (1, 0)) := rfl
  have e3 : playStep (Game.mk 0 11 true false true
      (Paddle.mk 38 245 ((humanVel k0 : ℤ) : ℝ)) (Paddle.mk 848 245 0)
      (Ball.mk 443 293 6 0)) (1, 0) (1, 0) =
      Game.mk 0 11 true false true
        (Paddle.mk 38 245 ((humanVel k0 : ℤ) : ℝ)) (Paddle.mk 848 245 0)
        (Ball.mk 449 293 6 0) := by
    unfold playStep
    dsimp only
    rw [paddleUpdate_eval 38 245 245 _ hL (by decide) (by decide)]
    rw [paddleUpdate_eval 848 245 245 _ hR (by decide) (by decide)]
    rw [ballUpdate_eval 443 293 449 293 _ _ hBx hBy]
    rw [clamp_noop _ (by decide) (by decide)]
    rw [collision_noop (Ball.mk 449 293 6 0)
      (Paddle.mk 38 245 ((humanVel k0 : ℤ) : ℝ))
      (by norm_num [colliderect, PADDLE_W, BALL_SIZE, PADDLE_H])]
    rw [collision_noop (Ball.mk 449 293 6 0) (Paddle.mk 848 245 0)
      (by norm_num [colliderect, PADDLE_W, BALL_SIZE, PADDLE_H])]
    exact scoreStep_noop _ _ _ (by decide) (by decide)
  have e4 : winCheck (Game.mk 0 11 true false true
      (Paddle.mk 38 245 ((humanVel k0 : ℤ) : ℝ)) (Paddle.mk 848 245 0)
      (Ball.mk 449 293 6 0)) =
      Game.mk 0 11 true true true
        (Paddle.mk 38 245 ((humanVel k0 : ℤ) : ℝ)) (Paddle.mk 848 245 0)
        (Ball.mk 449 293 6 0) := by
    unfold winCheck
    rw [if_pos (Or.inr (by decide))]
  refine ⟨rfl, rfl, ?_, rfl, ?_⟩
  · rw [e2, e3, e4]
  · rw [e2, e3, e4]

/-- Events that neither toggle the pause flag nor reset the game. -/
def stillEvent : Ev → Prop
  | .space => False
  | .rkey _ _ => False
  | _ => True

theorem doEvent_frozen (g : Game) (e : Ev) (he : stillEvent e) :
    (doEvent g e).ball = g.ball ∧ (doEvent g e).left = g.left ∧
    (doEvent g e).right = g.right ∧ (doEvent g e).score_l = g.score_l ∧
    (doEvent g e).score_r = g.score_r ∧ (doEvent g e).paused = g.paused := by
  cases e with
  | quit => exact ⟨rfl, rfl, rfl, rfl, rfl, rfl⟩
  | escape => exact ⟨rfl, rfl, rfl, rfl, rfl, rfl⟩
  | space => exact he.elim
  | rkey dirx diry => exact he.elim
  | hkey => exact ⟨rfl, rfl, rfl, rfl, rfl, rfl⟩
  | other => exact ⟨rfl, rfl, rfl, rfl, rfl, rfl⟩

theorem foldl_frozen (evs : List Ev) (g : Game)
    (hev : ∀ e ∈ evs, stillEvent e) :
    (evs.foldl doEvent g).ball = g.ball ∧
    (evs.foldl doEvent g).left = g.left ∧
    (evs.foldl doEvent g).right = g.right ∧
    (evs.foldl doEvent g).score_l = g.score_l ∧
    (evs.foldl doEvent g).score_r = g.score_r ∧
    (evs.foldl doEvent g).paused = g.paused := by
  induction evs generalizing g with
  | nil => exact ⟨rfl, rfl, rfl, rfl, rfl, rfl⟩
  | cons e t ih =>
      have he : stillEvent e := hev e (List.mem_cons_self e t)
      have ht : ∀ x ∈ t, stillEvent x := fun x hx => hev x (List.mem_cons_of_mem e hx)
      obtain ⟨b1, l1, r1, sl1, sr1, p1⟩ := doEvent_frozen g e he
      obtain ⟨b2, l2, r2, sl2, sr2, p2⟩ := ih (doEvent g e) ht
      exact ⟨b2.trans b1, l2.trans l1, r2.trans r1, sl2.trans sl1,
        sr2.trans sr1, p2.trans p1⟩

theorem stepFrame_paused_eval (g : Game) (evs : List Ev) (keys : Keys)
    (dA dB : Draw) (hp : (evs.foldl doEvent g).paused = true) :
    stepFrame g evs keys dA dB =
      winCheck { evs.foldl doEvent g with
        left := { (evs.foldl doEvent g).left with vel := ((humanVel keys : ℤ) : ℝ) },
        right := ai_move (evs.foldl doEvent g).right (evs.foldl doEvent g).ball } := by
  unfold stepFrame
  dsimp only
  split_ifs
  rfl

theorem winCheck_ball (g : Game) : (winCheck g).ball = g.ball := by
  unfold winCheck
  split_ifs <;> rfl

theorem winCheck_left (g : Game) : (winCheck g).left = g.left := by
  unfold winCheck
  split_ifs <;> rfl

theorem winCheck_right (g : Game) : (winCheck g).right = g.right := by
  unfold winCheck
  split_ifs <;> rfl

theorem winCheck_score_l (g : Game) : (winCheck g).score_l = g.score_l := by
  unfold winCheck
  split_ifs <;> rfl

theorem winCheck_score_r (g : Game) : (winCheck g).score_r = g.score_r := by
  unfold winCheck
  split_ifs <;> rfl

theorem winCheck_paused_true (g : Game) (h : g.paused = true) :
    (winCheck g).paused = true := by
  unfold winCheck
  split_ifs <;> simp [h]

theorem ai_move_x (p : Paddle) (b : Ball) : (ai_move p b).x = p.x := by
  unfold ai_move
  split_ifs <;> rfl

theorem ai_move_y (p : Paddle) (b : Ball) : (ai_move p b).y = p.y := by
  unfold ai_move
  split_ifs <;> rfl

/-- C2 (amended): while `paused` is set — in particular in the Won state,
where the win banner re-asserts it every frame — a frame whose events
contain no pause-toggle and no reset performs no gameplay update: ball,
paddle positions and scores are unchanged and the frame ends still
paused.  (A `Space` event breaks this, see the counterexample; `H`, quit
and unknown keys are all still accepted and processed.) -/
theorem c2_won_state_frozen_until_unfreeze_input (g : Game) (evs : List Ev)
    (keys : Keys) (dA dB : Draw) (hp : g.paused = true)
    (hev : ∀ e ∈ evs, stillEvent e) :
    (stepFrame g evs keys dA dB).ball = g.ball ∧
    (stepFrame g evs keys dA dB).left.x = g.left.x ∧
    (stepFrame g evs keys dA dB).left.y = g.left.y ∧
    (stepFrame g evs keys dA dB).right.x = g.right.x ∧
    (stepFrame g evs keys dA dB).right.y = g.right.y ∧
    (stepFrame g evs keys dA dB).score_l = g.score_l ∧
    (stepFrame g evs keys dA dB).score_r = g.score_r ∧
    (stepFrame g evs keys dA dB).paused = true := by
  obtain ⟨hb, hl, hr, hsl, hsr, hpp⟩ := foldl_frozen evs g hev
  have hp1 : (evs.foldl doEvent g).paused = true := by rw [hpp, hp]
  rw [stepFrame_paused_eval g evs keys dA dB hp1]
  refine ⟨?_, ?_, ?_, ?_, ?_, ?_, ?_, ?_⟩
  · rw [winCheck_ball]
    exact hb
  · rw [winCheck_left]
    have hx := congrArg Paddle.x hl
    exact hx
  · rw [winCheck_left]
    have hy := congrArg Paddle.y hl
    exact hy
  · rw [winCheck_right]
    show (ai_move (evs.foldl doEvent g).right (evs.foldl doEvent g).ball).x = g.right.x
    rw [ai_move_x]
    exact congrArg Paddle.x hr
  · rw [winCheck_right]
    show (ai_move (evs.foldl doEvent g).right (evs.foldl doEvent g).ball).y = g.right.y
    rw [ai_move_y]
    exact congrArg Paddle.y hr
  · rw [winCheck_score_l]
    exact hsl
  · rw [winCheck_score_r]
    exact hsr
  · exact winCheck_paused_true _ hp1

theorem c2_won_state_frozen_until_unfreeze_input_witness :
    wonGame.paused = true ∧ (∀ e ∈ [Ev.hkey], stillEvent e) ∧
    ((stepFrame wonGame [Ev.hkey] k0 (1, 0) (1, 0)).ball = wonGame.ball ∧
     (stepFrame wonGame [Ev.hkey] k0 (1, 0) (1, 0)).left.x = wonGame.left.x ∧
     (stepFrame wonGame [Ev.hkey] k0 (1, 0) (1, 0)).left.y = wonGame.left.y ∧
     (stepFrame wonGame [Ev.hkey] k0 (1, 0) (1, 0)).right.x = wonGame.right.x ∧
     (stepFrame wonGame [Ev.hkey] k0 (1, 0) (1, 0)).right.y = wonGame.right.y ∧
     (stepFrame wonGame [Ev.hkey] k0 (1, 0) (1, 0)).score_l = wonGame.score_l ∧
     (stepFrame wonGame [Ev.hkey] k0 (1, 0) (1, 0)).score_r = wonGame.score_r ∧
     (stepFrame wonGame [Ev.hkey] k0 (1, 0) (1, 0)).paused = true) := by
  have hev : ∀ e ∈ [Ev.hkey], stillEvent e := by
    intro e he
    rw [List.mem_singleton] at he
    subst he
    trivial
  exact ⟨rfl, hev,
    c2_won_state_frozen_until_unfreeze_input wonGame [Ev.hkey] k0 (1, 0) (1, 0) rfl hev⟩

/-! ### C3: the scoring trigger -/

/-- The trigger exactly as the claim words it: "the ball's right edge passes
the left play-area boundary by the small tolerance margin".  Stated from the
spec's words for comparison with the code's `scoreStep`, which tests the
ball's LEFT edge (`ball.left <= play_area.left - 4`). -/
def specRightEdgePastLeft (b : Ball) : Prop := b.right ≤ play_area.left - 4

/-- A mid-rally game whose ball has crossed the left boundary:
`ball.left = 10 <= 16`, but its right edge (24) is nowhere near
`play_area.left - 4 = 16`. -/
def c3game : Game :=
  { score_l := 0, score_r := 5, running := true, paused := false,
    show_help := true, left := ⟨38, 245, 0⟩, right := ⟨848, 245, 0⟩,
    ball := ⟨10, 400, -6, 0⟩ }

/-- C3 (counterexample): the code scores for the right player (and re-centers
the ball) although the ball's right edge has NOT passed the left boundary by
the tolerance margin: the code's trigger is the ball's left edge, not its
right edge. -/
theorem c3_scores_although_right_edge_not_past :
    (scoreStep c3game (1, 0) (1, 0)).score_r = c3game.score_r + 1 ∧
    (scoreStep c3game (1, 0) (1, 0)).ball.x = 443 ∧
    (scoreStep c3game (1, 0) (1, 0)).ball.y = 293 ∧
    ¬ specRightEdgePastLeft c3game.ball := by
  refine ⟨rfl, rfl, rfl, ?_⟩
  unfold specRightEdgePastLeft
  decide

/-- C3 (amended): a point is scored exactly when the ball's LEFT edge passes
the left boundary by the 4 px margin (`ball.left <= play_area.left - 4`):
then `score_r` increments by exactly 1, `score_l` is unchanged, and the ball
is reset to the window center with a fresh draw; symmetrically (checked
second, on the possibly-reset ball) the left player scores when the ball's
right edge passes the right boundary by 4 px; otherwise nothing changes. -/
theorem c3_scoring_exactly_on_edges (g : Game) (dA dB : Draw) :
    (g.ball.left ≤ play_area.left - 4 →
      (scoreStep g dA dB).score_r = g.score_r + 1 ∧
      (scoreStep g dA dB).score_l = g.score_l ∧
      (scoreStep g dA dB).ball = Ball.reset (WIDTH / 2, HEIGHT / 2) dA.1 dA.2) ∧
    (¬ g.ball.left ≤ play_area.left - 4 → g.ball.right ≥ play_area.right + 4 →
      (scoreStep g dA dB).score_l = g.score_l + 1 ∧
      (scoreStep g dA dB).score_r = g.score_r ∧
      (scoreStep g dA dB).ball = Ball.reset (WIDTH / 2, HEIGHT / 2) dB.1 dB.2) ∧
    (¬ g.ball.left ≤ play_area.left - 4 → ¬ g.ball.right ≥ play_area.right + 4 →
      scoreStep g dA dB = g) := by
  refine ⟨?_, ?_, ?_⟩
  · intro h
    unfold scoreStep
    rw [if_pos h]
    rw [if_neg (by
      norm_num [Ball.right, Ball.reset, play_area, RectA.right, WIDTH, HEIGHT,
        MARGIN, BALL_SIZE])]
    exact ⟨rfl, rfl, rfl⟩
  · intro h1 h2
    unfold scoreStep
    rw [if_neg h1, if_pos h2]
    exact ⟨rfl, rfl, rfl⟩
  · intro h1 h2
    exact scoreStep_noop g dA dB h1 h2

theorem c3_scoring_exactly_on_edges_witness :
    c3game.ball.left ≤ play_area.left - 4 ∧
    ((scoreStep c3game (1, 0) (1, 0)).score_r = c3game.score_r + 1 ∧
     (scoreStep c3game (1, 0) (1, 0)).score_l = c3game.score_l ∧
     (scoreStep c3game (1, 0) (1, 0)).ball = Ball.reset (WIDTH / 2, HEIGHT / 2) 1 0) :=
  ⟨by decide, (c3_scoring_exactly_on_edges c3game (1, 0) (1, 0)).1 (by decide)⟩

end Pong
